import Mathlib

/-!
Verification development for the L1TF/Foreshadow leak demonstrator
(`timer.cpp` / `l1tf.cpp` plus the guest attack program `l1tf-guest.asm`).

The host-side classes (`page_table`, `l1tf_leaker`, `cache_loader`,
`value_reconstructor`, the driving loop in `main`) and the per-bit vote
encoding of the guest attack state machine are embedded shallowly as
executable Lean functions over `Nat`.  Machine integers (`uint32_t`,
`uint64_t`) are modelled as `Nat` with explicit `% 2 ^ 32` / `% 2 ^ 64`
reductions where C arithmetic can wrap; bit operations use `Nat.testBit`,
`&&&`, `|||` and `<<<`, which agree with the C semantics on in-range
values.
-/

namespace L1tfDemo

/-- Page size constant, `static const uint64_t page_size = 4096`. -/
def page_size : Nat := 4096

/-- Hardcoded I/O port where the guest reports results,
`static const uint16_t guest_result_port = 0`. -/
def guest_result_port : Nat := 0

/-- `struct value_pair { uint32_t value; uint32_t sureness; }` -/
structure value_pair where
  value : Nat
  sureness : Nat
deriving Repr, DecidableEq

/-- State of `class value_reconstructor`: `std::array<std::pair<int,int>, 32> freq {}`.
Component `.1` is `first` (zero votes), component `.2` is `second` (one votes).
The C++ counters are `int`; they only ever increase by 1 per recorded sample,
so we model them as `Nat`. -/
structure value_reconstructor where
  freq : Fin 32 → Nat × Nat

/-- The freshly constructed reconstructor: `freq {}` value-initialises all
counters to zero. -/
def value_reconstructor.init : value_reconstructor := ⟨fun _ => (0, 0)⟩

/-- `value_reconstructor::record_attempt(value_pair const &e)`:
for each bit position, when `e.sureness & (1 << bit_pos)` is nonzero,
increment `freq[bit_pos].second` when the value bit is set and
`freq[bit_pos].first` otherwise.  The mask test `e.sureness & mask` is
exactly `Nat.testBit`.  The C++ loop touches each of the 32 array slots
once, which is the pointwise function below. -/
def value_reconstructor.record_attempt (r : value_reconstructor) (e : value_pair) :
    value_reconstructor :=
  ⟨fun bit_pos =>
    if e.sureness.testBit (bit_pos : Nat) then
      if e.value.testBit (bit_pos : Nat) then
        ((r.freq bit_pos).1, (r.freq bit_pos).2 + 1)
      else
        ((r.freq bit_pos).1 + 1, (r.freq bit_pos).2)
    else r.freq bit_pos⟩

/-- `value_reconstructor::get_most_likely_value()`: start from
`reconstructed = 0` and for `bit_pos = 0..31` set
`reconstructed |= 1U << bit_pos` whenever
`freq[bit_pos].second > freq[bit_pos].first`. -/
def value_reconstructor.get_most_likely_value (r : value_reconstructor) : Nat :=
  (List.finRange 32).foldl
    (fun reconstructed bit_pos =>
      if (r.freq bit_pos).2 > (r.freq bit_pos).1 then
        reconstructed ||| 1 <<< (bit_pos : Nat)
      else reconstructed)
    0

/-- Fold a list of samples into a reconstructor, starting from the fresh
state, as the driving loop does with 16 samples. -/
def record_all (samples : List value_pair) : value_reconstructor :=
  samples.foldl value_reconstructor.record_attempt value_reconstructor.init

/-- Number of recorded samples that vote for bit `i` being 1:
sureness bit `i` set and value bit `i` set. -/
def one_votes (samples : List value_pair) (i : Fin 32) : Nat :=
  samples.countP fun e => e.sureness.testBit (i : Nat) && e.value.testBit (i : Nat)

/-- Number of recorded samples that vote for bit `i` being 0:
sureness bit `i` set and value bit `i` clear. -/
def zero_votes (samples : List value_pair) (i : Fin 32) : Nat :=
  samples.countP fun e => e.sureness.testBit (i : Nat) && !(e.value.testBit (i : Nat))

/-! ### Generic bit-accumulation lemmas -/

theorem foldl_set_bit_testBit (P : Fin 32 → Prop) [DecidablePred P]
    (l : List (Fin 32)) (x : Nat) (i : Nat) :
    ((l.foldl
        (fun acc k => if P k then acc ||| 1 <<< (k : Nat) else acc) x).testBit i) =
      (x.testBit i || l.any fun k => decide ((k : Nat) = i) && decide (P k)) := by
  induction l generalizing x with
  | nil => simp
  | cons k l ih =>
    simp only [List.foldl_cons, List.any_cons, ih]
    by_cases hk : P k
    · rw [if_pos hk, Nat.testBit_or, Nat.one_shiftLeft, Nat.testBit_two_pow,
        decide_eq_true hk, Bool.and_true]
      exact Bool.or_assoc _ _ _
    · simp [hk]

theorem any_finRange_decide (v : Fin 32 → Bool) (i : Nat) (h : i < 32) :
    ((List.finRange 32).any fun k => decide ((k : Nat) = i) && v k) = v ⟨i, h⟩ := by
  cases hv : v ⟨i, h⟩
  · refine List.any_eq_false.mpr ?_
    intro k _
    by_cases hk : (k : Nat) = i
    · have hk2 : k = ⟨i, h⟩ := Fin.ext hk
      subst hk2
      simp [hv]
    · simp [hk]
  · refine List.any_eq_true.mpr ?_
    exact ⟨⟨i, h⟩, List.mem_finRange _, by simp [hv]⟩

/-- Bit `i` (for `i < 32`) of the reconstructed value is set exactly when the
one-vote counter strictly exceeds the zero-vote counter. -/
theorem testBit_get_most_likely_value (r : value_reconstructor) (i : Nat) (h : i < 32) :
    (r.get_most_likely_value).testBit i =
      decide ((r.freq ⟨i, h⟩).1 < (r.freq ⟨i, h⟩).2) := by
  unfold value_reconstructor.get_most_likely_value
  rw [foldl_set_bit_testBit (fun k => (r.freq k).2 > (r.freq k).1)]
  rw [any_finRange_decide (fun k => decide ((r.freq k).2 > (r.freq k).1)) i h]
  simp [gt_iff_lt]

/-- Counters after folding a list of samples on top of a reconstructor state:
each component grows by the corresponding vote count. -/
theorem freq_foldl_record (samples : List value_pair) (r : value_reconstructor)
    (i : Fin 32) :
    ((samples.foldl value_reconstructor.record_attempt r).freq i) =
      ((r.freq i).1 + zero_votes samples i, (r.freq i).2 + one_votes samples i) := by
  induction samples generalizing r with
  | nil => simp [zero_votes, one_votes]
  | cons e samples ih =>
    simp only [List.foldl_cons, ih, zero_votes, one_votes, List.countP_cons]
    unfold value_reconstructor.record_attempt
    by_cases hs : e.sureness.testBit (i : Nat)
    · by_cases hv : e.value.testBit (i : Nat)
      · simp only [hs, hv, if_true, if_pos]
        refine Prod.ext ?_ ?_ <;> simp [zero_votes, one_votes, hs, hv] <;> omega
      · simp only [hs, hv, if_true, if_false]
        refine Prod.ext ?_ ?_ <;> simp [zero_votes, one_votes, hs, hv] <;> omega
    · simp only [hs, if_false]
      refine Prod.ext ?_ ?_ <;> simp [zero_votes, one_votes, hs] <;> omega

/-- Counters of the reconstructor built from a sample list are exactly the
per-bit vote counts. -/
theorem freq_record_all (samples : List value_pair) (i : Fin 32) :
    (record_all samples).freq i = (zero_votes samples i, one_votes samples i) := by
  unfold record_all
  rw [freq_foldl_record]
  simp [value_reconstructor.init]

/-- The two vote counters for a bit never exceed the number of samples. -/
theorem votes_le_length (samples : List value_pair) (i : Fin 32) :
    zero_votes samples i + one_votes samples i ≤ samples.length := by
  induction samples with
  | nil => simp [zero_votes, one_votes]
  | cons e samples ih =>
    simp only [zero_votes, one_votes, List.countP_cons, List.length_cons] at *
    by_cases hs : e.sureness.testBit (i : Nat) <;>
      by_cases hv : e.value.testBit (i : Nat) <;> simp [hs, hv] <;> omega

/-- Claim C1: majority-vote correctness of the reconstructor.  For every
sequence of recorded samples and every bit position `i < 32`, bit `i` of
`get_most_likely_value()` is 1 exactly when the one-vote counter for bit `i`
strictly exceeds the zero-vote counter; in particular a strict majority of
confident 1-reports among the samples sets bit `i`, a strict majority of
confident 0-reports clears it, and an exact tie clears it. -/
theorem reconstructor_majority_vote (samples : List value_pair) (i : Nat) (h : i < 32) :
    (((record_all samples).get_most_likely_value).testBit i = true ↔
       zero_votes samples ⟨i, h⟩ < one_votes samples ⟨i, h⟩) ∧
    (2 * one_votes samples ⟨i, h⟩ > samples.length →
       ((record_all samples).get_most_likely_value).testBit i = true) ∧
    (2 * zero_votes samples ⟨i, h⟩ > samples.length →
       ((record_all samples).get_most_likely_value).testBit i = false) ∧
    (one_votes samples ⟨i, h⟩ = zero_votes samples ⟨i, h⟩ →
       ((record_all samples).get_most_likely_value).testBit i = false) := by
  have hbit : ((record_all samples).get_most_likely_value).testBit i =
      decide (zero_votes samples ⟨i, h⟩ < one_votes samples ⟨i, h⟩) := by
    rw [testBit_get_most_likely_value _ i h, freq_record_all]
  have hle := votes_le_length samples ⟨i, h⟩
  refine ⟨by rw [hbit]; simp, ?_, ?_, ?_⟩
  · intro hmaj
    rw [hbit, decide_eq_true_eq]
    omega
  · intro hmaj
    rw [hbit, decide_eq_false_iff_not]
    omega
  · intro htie
    rw [hbit, decide_eq_false_iff_not]
    omega

/-- Closed witness for C1 on a concrete sample list: two confident 1-votes
against one confident 0-vote at bit 0 set bit 0 of the reconstruction. -/
theorem reconstructor_majority_vote_witness :
    (((record_all [⟨1, 1⟩, ⟨1, 1⟩, ⟨0, 1⟩]).get_most_likely_value).testBit 0 = true ↔
       zero_votes [⟨1, 1⟩, ⟨1, 1⟩, ⟨0, 1⟩] ⟨0, by decide⟩ <
         one_votes [⟨1, 1⟩, ⟨1, 1⟩, ⟨0, 1⟩] ⟨0, by decide⟩) ∧
    (2 * one_votes [⟨1, 1⟩, ⟨1, 1⟩, ⟨0, 1⟩] ⟨0, by decide⟩ >
       (([⟨1, 1⟩, ⟨1, 1⟩, ⟨0, 1⟩] : List value_pair)).length →
       ((record_all [⟨1, 1⟩, ⟨1, 1⟩, ⟨0, 1⟩]).get_most_likely_value).testBit 0 = true) ∧
    (2 * zero_votes [⟨1, 1⟩, ⟨1, 1⟩, ⟨0, 1⟩] ⟨0, by decide⟩ >
       (([⟨1, 1⟩, ⟨1, 1⟩, ⟨0, 1⟩] : List value_pair)).length →
       ((record_all [⟨1, 1⟩, ⟨1, 1⟩, ⟨0, 1⟩]).get_most_likely_value).testBit 0 = false) ∧
    (one_votes [⟨1, 1⟩, ⟨1, 1⟩, ⟨0, 1⟩] ⟨0, by decide⟩ =
       zero_votes [⟨1, 1⟩, ⟨1, 1⟩, ⟨0, 1⟩] ⟨0, by decide⟩ →
       ((record_all [⟨1, 1⟩, ⟨1, 1⟩, ⟨0, 1⟩]).get_most_likely_value).testBit 0 = false) :=
  reconstructor_majority_vote [⟨1, 1⟩, ⟨1, 1⟩, ⟨0, 1⟩] 0 (by decide)

/-- Claim C2: sureness filtering invariant of `record_attempt`.  For every
sample and bit position, the counters for that bit are untouched when the
sureness bit is clear; when it is set, exactly one of the two counters is
incremented, chosen by the value bit.  Consequently, a word all of whose
recorded samples have sureness bit `i` clear reconstructs bit `i` as 0. -/
theorem record_attempt_sureness_filter (r : value_reconstructor) (e : value_pair)
    (i : Fin 32) :
    (e.sureness.testBit (i : Nat) = false → (r.record_attempt e).freq i = r.freq i) ∧
    (e.sureness.testBit (i : Nat) = true → e.value.testBit (i : Nat) = true →
       (r.record_attempt e).freq i = ((r.freq i).1, (r.freq i).2 + 1)) ∧
    (e.sureness.testBit (i : Nat) = true → e.value.testBit (i : Nat) = false →
       (r.record_attempt e).freq i = ((r.freq i).1 + 1, (r.freq i).2)) ∧
    (∀ samples : List value_pair,
       (∀ s ∈ samples, s.sureness.testBit (i : Nat) = false) →
       ((record_all samples).get_most_likely_value).testBit (i : Nat) = false) := by
  refine ⟨?_, ?_, ?_, ?_⟩
  · intro hs
    simp [value_reconstructor.record_attempt, hs]
  · intro hs hv
    simp [value_reconstructor.record_attempt, hs, hv]
  · intro hs hv
    simp [value_reconstructor.record_attempt, hs, hv]
  · intro samples hall
    have hzero : one_votes samples i = 0 := by
      unfold one_votes
      rw [List.countP_eq_zero]
      intro s hsmem
      simp [hall s hsmem]
    rw [testBit_get_most_likely_value _ (i : Nat) i.isLt]
    have : (⟨(i : Nat), i.isLt⟩ : Fin 32) = i := rfl
    rw [this, freq_record_all]
    simp [hzero]

/-- Closed witness for C2 at a concrete sample whose sureness masks out bit 0
but confirms bit 1. -/
theorem record_attempt_sureness_filter_witness :
    ((2 : Nat).testBit 0 = false →
       ((value_reconstructor.init).record_attempt ⟨3, 2⟩).freq 0 =
         (value_reconstructor.init).freq 0) ∧
    ((2 : Nat).testBit 0 = true → (3 : Nat).testBit 0 = true →
       ((value_reconstructor.init).record_attempt ⟨3, 2⟩).freq 0 =
         (((value_reconstructor.init).freq 0).1,
           ((value_reconstructor.init).freq 0).2 + 1)) ∧
    ((2 : Nat).testBit 0 = true → (3 : Nat).testBit 0 = false →
       ((value_reconstructor.init).record_attempt ⟨3, 2⟩).freq 0 =
         (((value_reconstructor.init).freq 0).1 + 1,
           ((value_reconstructor.init).freq 0).2)) ∧
    (∀ samples : List value_pair,
       (∀ s ∈ samples, s.sureness.testBit 0 = false) →
       ((record_all samples).get_most_likely_value).testBit 0 = false) :=
  record_attempt_sureness_filter value_reconstructor.init ⟨3, 2⟩ 0

/-! ### Guest attack state machine (`l1tf-guest.asm`) per-bit vote encoding -/

/-- Cache hit threshold from the guest program:
`%define MAX_CACHE_LATENCY 0xb0`. -/
def MAX_CACHE_LATENCY : Nat := 0xb0

/-- Classification of one probe-line latency measurement: `setb` after
`cmp esi, MAX_CACHE_LATENCY`, so a line counts as cached exactly when its
measured latency is strictly below the threshold. -/
def classify_cached (latency : Nat) : Bool := decide (latency < MAX_CACHE_LATENCY)

/-- One iteration of the `next_bit` loop after the transaction abort, from
`measure esi, [rbx]` up to `or r11d, eax`.  Inputs: the current bit position
`cl` (register R8/CL), the cached classifications of probe line A (`target0`,
register SIL) and probe line B (`target1`, register BL), and the pair of
accumulators `(R9, R11)`.  The code sets
`eax := bl << cl` and ors it into R9, builds `esi := sil | (bl << 1)`, sets
`al := (esi == 0b10)`, `dl := (esi == 0b01)`, ors them, shifts by `cl` and ors
the result into R11. -/
def next_bit_fold (cl : Nat) (cachedA cachedB : Bool) (acc : Nat × Nat) : Nat × Nat :=
  let eax := cachedB.toNat <<< cl
  let r9 := acc.1 ||| eax
  let esi := cachedA.toNat ||| (cachedB.toNat <<< 1)
  let vote := (if esi = 2 then 1 else 0) ||| (if esi = 1 then 1 else 0)
  let r11 := acc.2 ||| (vote <<< cl)
  (r9, r11)

/-- The full `next_bit` loop over bit positions 0..31 (R8 runs from 0 while
`cmp r8d, 32; jb next_bit` holds), starting from `xor r9d, r9d` and
`xor r11d, r11d`.  The latency measured for probe line A and probe line B at
each bit position is an oracle input; the returned pair is `(R9, R11)` as
reported to the host. -/
def guest_report (latA latB : Fin 32 → Nat) : Nat × Nat :=
  (List.finRange 32).foldl
    (fun acc (k : Fin 32) =>
      next_bit_fold k.val (classify_cached (latA k)) (classify_cached (latB k)) acc)
    (0, 0)

/-- The register-level step is the pair of or-accumulations of the value bit
(line B cached) and the sureness bit (exactly one line cached). -/
theorem next_bit_fold_eq (cl : Nat) (a b : Bool) (acc : Nat × Nat) :
    next_bit_fold cl a b acc =
      (acc.1 ||| (b.toNat <<< cl), acc.2 ||| ((xor a b).toNat <<< cl)) := by
  cases a <;> cases b <;> simp [next_bit_fold]

/-- A fold that updates the two components of a pair independently splits
into two folds. -/
theorem foldl_pair_split {α β γ : Type} (f : α → γ → α) (g : β → γ → β)
    (l : List γ) (x : α) (y : β) :
    l.foldl (fun p k => (f p.1 k, g p.2 k)) (x, y) = (l.foldl f x, l.foldl g y) := by
  induction l generalizing x y with
  | nil => rfl
  | cons k l ih => simp [ih]

theorem foldl_or_toNat_testBit (v : Fin 32 → Bool) (l : List (Fin 32)) (x : Nat)
    (i : Nat) :
    ((l.foldl (fun acc k => acc ||| ((v k).toNat <<< (k : Nat))) x).testBit i) =
      (x.testBit i || l.any fun k => decide ((k : Nat) = i) && v k) := by
  induction l generalizing x with
  | nil => simp
  | cons k l ih =>
    simp only [List.foldl_cons, List.any_cons, ih]
    cases hv : v k
    · simp
    · rw [Nat.testBit_or, Bool.toNat_true, Nat.one_shiftLeft, Nat.testBit_two_pow,
        Bool.and_true]
      exact Bool.or_assoc _ _ _

/-- Claim C3: guest per-bit vote encoding.  For each bit position `i < 32`,
the sureness bit `i` of the reported R11 mask is set exactly when exactly one
of the two probe lines is classified cached by the latency measurement, and
the value bit `i` folded into R9 is set exactly when probe line B (`target1`)
is classified cached. -/
theorem guest_vote_encoding (latA latB : Fin 32 → Nat) (i : Nat) (h : i < 32) :
    ((guest_report latA latB).2.testBit i =
       (classify_cached (latA ⟨i, h⟩) != classify_cached (latB ⟨i, h⟩))) ∧
    ((guest_report latA latB).1.testBit i = classify_cached (latB ⟨i, h⟩)) := by
  have hrep : guest_report latA latB =
      ((List.finRange 32).foldl
        (fun acc k => acc ||| ((classify_cached (latB k)).toNat <<< (k : Nat))) 0,
       (List.finRange 32).foldl
        (fun acc k =>
          acc ||| ((xor (classify_cached (latA k)) (classify_cached (latB k))).toNat <<<
            (k : Nat))) 0) := by
    unfold guest_report
    rw [show (fun (acc : Nat × Nat) (k : Fin 32) =>
          next_bit_fold k.val (classify_cached (latA k)) (classify_cached (latB k)) acc) =
        fun (acc : Nat × Nat) (k : Fin 32) =>
          (acc.1 ||| ((classify_cached (latB k)).toNat <<< (k : Nat)),
           acc.2 ||| ((xor (classify_cached (latA k)) (classify_cached (latB k))).toNat <<<
             (k : Nat)))
      from funext fun acc => funext fun k => next_bit_fold_eq _ _ _ _]
    exact foldl_pair_split
      (fun x k => x ||| ((classify_cached (latB k)).toNat <<< (k : Nat)))
      (fun y k => y ||| ((xor (classify_cached (latA k)) (classify_cached (latB k))).toNat <<<
        (k : Nat)))
      (List.finRange 32) 0 0
  rw [hrep]
  constructor
  · rw [foldl_or_toNat_testBit
      (fun k => xor (classify_cached (latA k)) (classify_cached (latB k)))]
    rw [any_finRange_decide
      (fun k => xor (classify_cached (latA k)) (classify_cached (latB k))) i h]
    simp only [Nat.zero_testBit, Bool.false_or]
  · rw [foldl_or_toNat_testBit (fun k => classify_cached (latB k))]
    rw [any_finRange_decide (fun k => classify_cached (latB k)) i h]
    simp

/-- Closed witness for C3: at bit 0, probe line A measured slow (0x200) and
probe line B fast (0x10) yields a confident 1 bit. -/
theorem guest_vote_encoding_witness :
    ((guest_report (fun _ => 0x200) (fun _ => 0x10)).2.testBit 0 =
       (classify_cached 0x200 != classify_cached 0x10)) ∧
    ((guest_report (fun _ => 0x200) (fun _ => 0x10)).1.testBit 0 =
       classify_cached 0x10) :=
  guest_vote_encoding (fun _ => 0x200) (fun _ => 0x10) 0 (by decide)

/-! ### `class page_table` -/

/-- Flags `present, writable, system, dirty, accessed`. -/
def page_pws : Nat := 0x63

/-- Large page flag. -/
def page_large : Nat := 0x80

/-- The four page frames of the paging hierarchy: `pml4` at offset 0,
`pdpt` at one page, `pd` at two pages, `pt` at three pages, each holding
512 64-bit entries. -/
structure page_table_state where
  pml4 : Fin 512 → Nat
  pdpt : Fin 512 → Nat
  pd : Fin 512 → Nat
  pt : Fin 512 → Nat

/-- The 64-bit value of `~(page_size - 1)`, the complement of the page-offset
mask inside a `uint64_t`. -/
def victim_frame_mask : Nat := 2 ^ 64 - page_size

/-- `page_table::set_victim_pa(uint64_t pa)`:
`pt()[0] = (pa & ~(page_size - 1)) | 0x60;` — only leaf entry 0 is written. -/
def page_table_state.set_victim_pa (s : page_table_state) (pa : Nat) : page_table_state :=
  { s with pt := Function.update s.pt 0 ((pa &&& victim_frame_mask) ||| 0x60) }

/-- `page_table::get_victim_gva(uint64_t pa) const`:
`return (pa & (page_size - 1)) | (1UL << 30);`.  The member function is
`const` and reads none of the object state; the state parameter records
that it is evaluated against a `page_table` object. -/
def page_table_state.get_victim_gva (_ : page_table_state) (pa : Nat) : Nat :=
  (pa &&& (page_size - 1)) ||| (1 <<< 30)

/-- The `page_table` constructor body after zero-filling the four frames:
the low-GB identity mapping in `pml4[0]` and `pdpt[0]`, the victim path
through `pdpt[1]`, `pd[0]`, and the inert leaf entry `pt[0] = 0`.  The
constructor dies unless `gpa` is page-aligned, hence the `Option`. -/
def page_table_init (gpa : Nat) : Option page_table_state :=
  if gpa % page_size ≠ 0 then none
  else
    let zero : Fin 512 → Nat := fun _ => 0
    some
      { pml4 := Function.update zero 0 (((gpa + page_size) % 2 ^ 64) ||| page_pws)
        pdpt := Function.update
          (Function.update zero 0 (0 ||| page_pws ||| page_large)) 1
          (((gpa + 2 * page_size) % 2 ^ 64) ||| page_pws)
        pd := Function.update zero 0 (((gpa + 3 * page_size) % 2 ^ 64) ||| page_pws)
        pt := Function.update zero 0 0 }

/-- Clearing the low 12 bits with the 64-bit mask `~(page_size - 1)` is
subtraction of the page offset, for any in-range `uint64_t` value. -/
theorem and_victim_frame_mask (pa : Nat) (hpa : pa < 2 ^ 64) :
    pa &&& victim_frame_mask = pa - pa % 4096 := by
  have hmask : victim_frame_mask = (2 ^ 52 - 1) <<< 12 := by
    unfold victim_frame_mask page_size
    rw [Nat.shiftLeft_eq]
    norm_num
  have hsub : pa - pa % 4096 = (pa >>> 12) <<< 12 := by
    rw [Nat.shiftRight_eq_div_pow, Nat.shiftLeft_eq]
    have := Nat.div_add_mod pa 4096
    have h4096 : (2 : Nat) ^ 12 = 4096 := by norm_num
    omega
  rw [hmask, hsub]
  apply Nat.eq_of_testBit_eq
  intro i
  rw [Nat.testBit_and, Nat.testBit_shiftLeft, Nat.testBit_shiftLeft,
    Nat.testBit_shiftRight, Nat.testBit_two_pow_sub_one]
  by_cases h12 : 12 ≤ i
  · have hge : decide (i ≥ 12) = true := decide_eq_true h12
    have hidx : 12 + (i - 12) = i := by omega
    rw [hge, hidx, Bool.true_and, Bool.true_and]
    by_cases h64 : i < 64
    · have hlt : decide (i - 12 < 52) = true := decide_eq_true (by omega)
      rw [hlt, Bool.and_true]
    · have hhi : pa.testBit i = false :=
        Nat.testBit_lt_two_pow
          (lt_of_lt_of_le hpa (Nat.pow_le_pow_right (by norm_num) (by omega)))
      have hlt : decide (i - 12 < 52) = false := decide_eq_false (by omega)
      simp only [hhi, hlt, Bool.false_and, Bool.and_false]
  · have hge : decide (i ≥ 12) = false := decide_eq_false (by omega)
    simp only [hge, Bool.false_and, Bool.and_false]

/-- Claim C5: leaf-entry rewrite postcondition.  For every 64-bit physical
address, `set_victim_pa` writes leaf entry 0 to the page-frame field of `pa`
(low 12 bits cleared) OR-ed with 0x60, leaving the present bit (bit 0)
cleared. -/
theorem set_victim_pa_leaf_entry (s : page_table_state) (pa : Nat) (hpa : pa < 2 ^ 64) :
    (s.set_victim_pa pa).pt 0 = ((pa - pa % 4096) ||| 0x60) ∧
    ((s.set_victim_pa pa).pt 0).testBit 0 = false := by
  have hentry : (s.set_victim_pa pa).pt 0 = ((pa - pa % 4096) ||| 0x60) := by
    unfold page_table_state.set_victim_pa
    simp [Function.update, and_victim_frame_mask pa hpa]
  refine ⟨hentry, ?_⟩
  rw [hentry, Nat.testBit_or]
  have hlow : (pa - pa % 4096).testBit 0 = false := by
    rw [Nat.testBit_zero]
    have := Nat.div_add_mod pa 4096
    simp only [decide_eq_false_iff_not]
    omega
  simp [hlow]

/-- Closed witness for C5 at the trivial table state and a physical address
with offset bits set. -/
theorem set_victim_pa_leaf_entry_witness :
    ((page_table_state.mk (fun _ => 0) (fun _ => 0) (fun _ => 0)
        (fun _ => 0)).set_victim_pa 0x12345).pt 0 =
      ((0x12345 - 0x12345 % 4096) ||| 0x60) ∧
    (((page_table_state.mk (fun _ => 0) (fun _ => 0) (fun _ => 0)
        (fun _ => 0)).set_victim_pa 0x12345).pt 0).testBit 0 = false :=
  set_victim_pa_leaf_entry _ 0x12345 (by norm_num)

/-- Claim C7: victim guest-virtual-address derivation.  For every physical
address, `get_victim_gva(pa)` equals `(pa mod 4096) ||| 2 ^ 30`, its low 12
bits equal `pa mod 4096`, and the mapping is a pure stable function of `pa`
alone, independent of the page-table state it is evaluated against. -/
theorem get_victim_gva_spec (pa : Nat) :
    (∀ s : page_table_state, s.get_victim_gva pa = (pa % 4096) ||| 2 ^ 30) ∧
    (∀ s : page_table_state, (s.get_victim_gva pa) % 4096 = pa % 4096) ∧
    (∀ s₁ s₂ : page_table_state, s₁.get_victim_gva pa = s₂.get_victim_gva pa) := by
  have hval : ∀ s : page_table_state, s.get_victim_gva pa = (pa % 4096) ||| 2 ^ 30 := by
    intro s
    unfold page_table_state.get_victim_gva page_size
    rw [Nat.one_shiftLeft]
    congr 1
    have : (4096 - 1 : Nat) = 2 ^ 12 - 1 := by norm_num
    rw [this, Nat.and_pow_two_sub_one_eq_mod]
  refine ⟨hval, ?_, fun s₁ s₂ => (hval s₁).trans (hval s₂).symm⟩
  intro s
  rw [hval s]
  apply Nat.eq_of_testBit_eq
  intro i
  have h4096 : (4096 : Nat) = 2 ^ 12 := by norm_num
  rw [h4096, Nat.testBit_mod_two_pow, Nat.testBit_mod_two_pow, Nat.testBit_or,
    Nat.testBit_mod_two_pow, Nat.testBit_two_pow]
  by_cases hi : i < 12
  · have : ¬(30 = i) := by omega
    simp [hi, this]
  · simp [hi]

/-- Claim C8: idempotence and frame condition of the page-table rewrite.
Calling `set_victim_pa` twice with the same address equals a single call;
the rewrite never touches the top three table levels, writes only leaf
entry 0, and leaves the guest-virtual mapping function unchanged. -/
theorem set_victim_pa_idempotent_frame (s : page_table_state) (pa : Nat) :
    ((s.set_victim_pa pa).set_victim_pa pa = s.set_victim_pa pa) ∧
    ((s.set_victim_pa pa).pml4 = s.pml4) ∧
    ((s.set_victim_pa pa).pdpt = s.pdpt) ∧
    ((s.set_victim_pa pa).pd = s.pd) ∧
    (∀ j : Fin 512, j ≠ 0 → (s.set_victim_pa pa).pt j = s.pt j) ∧
    (∀ pa₂ : Nat, (s.set_victim_pa pa).get_victim_gva pa₂ = s.get_victim_gva pa₂) := by
  refine ⟨?_, rfl, rfl, rfl, ?_, fun _ => rfl⟩
  · unfold page_table_state.set_victim_pa
    simp [Function.update_idem]
  · intro j hj
    unfold page_table_state.set_victim_pa
    simp [Function.update, hj]

/-- Closed witness for C8: the frame condition instantiated at the trivial
table state and leaf index 1. -/
theorem set_victim_pa_idempotent_frame_witness :
    ((page_table_state.mk (fun _ => 0) (fun _ => 0) (fun _ => 0)
        (fun _ => 7)).set_victim_pa 4096).pt 1 =
      (page_table_state.mk (fun _ => 0) (fun _ => 0) (fun _ => 0) (fun _ => 7)).pt 1 :=
  (set_victim_pa_idempotent_frame
    (page_table_state.mk (fun _ => 0) (fun _ => 0) (fun _ => 0) (fun _ => 7))
    4096).2.2.2.2.1 1 (by decide)

/-! ### `l1tf_leaker::try_leak_dword` exit protocol -/

/-- `KVM_EXIT_IO` from the Linux UAPI headers. -/
def kvm_exit_io_code : Nat := 2

/-- The exit information read back from the `kvm_run` state after a guest
run: `exit_reason`, and for I/O exits `io.port` and `io.size`. -/
structure kvm_exit_state where
  exit_reason : Nat
  io_port : Nat
  io_size : Nat

/-- General-purpose registers read back with `KVM_GET_REGS` after the run;
only R9 and R11 matter for the report. -/
structure guest_exit_regs where
  r9 : Nat
  r11 : Nat

/-- The tail of `l1tf_leaker::try_leak_dword` after `vcpu_.run()`:
`die_on(state->exit_reason != KVM_EXIT_IO or state->io.port != guest_result_port
or state->io.size != 4, "unexpected exit"); return { (uint32_t)regs.r9,
(uint32_t)regs.r11 };`.  `die_on` terminates the process, modelled as `none`;
the `uint32_t` casts truncate modulo `2 ^ 32`. -/
def try_leak_dword_outcome (st : kvm_exit_state) (regs : guest_exit_regs) :
    Option value_pair :=
  if st.exit_reason ≠ kvm_exit_io_code ∨ st.io_port ≠ guest_result_port ∨
      st.io_size ≠ 4 then
    none
  else
    some ⟨regs.r9 % 2 ^ 32, regs.r11 % 2 ^ 32⟩

/-- Claim C4: orchestrator exit-protocol check.  `try_leak_dword` dies (no
sample) unless the exit is an I/O exit on port 0 with size 4; exactly when
the check passes it returns the `(value, sureness)` pair read from guest
registers R9 and R11. -/
theorem try_leak_dword_exit_protocol (st : kvm_exit_state) (regs : guest_exit_regs) :
    (st.exit_reason = kvm_exit_io_code ∧ st.io_port = guest_result_port ∧
        st.io_size = 4 →
      try_leak_dword_outcome st regs =
        some ⟨regs.r9 % 2 ^ 32, regs.r11 % 2 ^ 32⟩) ∧
    (¬(st.exit_reason = kvm_exit_io_code ∧ st.io_port = guest_result_port ∧
        st.io_size = 4) →
      try_leak_dword_outcome st regs = none) := by
  constructor
  · intro h
    unfold try_leak_dword_outcome
    rw [if_neg]
    push_neg
    exact ⟨h.1, h.2.1, h.2.2⟩
  · intro h
    unfold try_leak_dword_outcome
    rw [if_pos]
    by_contra hc
    push_neg at hc
    exact h ⟨hc.1, hc.2.1, hc.2.2⟩

/-- Closed witness for C4: a port-0 size-4 I/O exit yields the register pair,
and an MMIO exit (reason 6) yields no sample. -/
theorem try_leak_dword_exit_protocol_witness :
    try_leak_dword_outcome ⟨2, 0, 4⟩ ⟨0xdeadbeef, 0xffffffff⟩ =
      some ⟨0xdeadbeef % 2 ^ 32, 0xffffffff % 2 ^ 32⟩ ∧
    try_leak_dword_outcome ⟨6, 0, 4⟩ ⟨0xdeadbeef, 0xffffffff⟩ = none :=
  ⟨(try_leak_dword_exit_protocol ⟨2, 0, 4⟩ ⟨0xdeadbeef, 0xffffffff⟩).1
      (by refine ⟨rfl, rfl, rfl⟩),
   (try_leak_dword_exit_protocol ⟨6, 0, 4⟩ ⟨0xdeadbeef, 0xffffffff⟩).2
      (by intro h; exact absurd h.1 (by decide))⟩

/-! ### `class cache_loader` -/

/-- The shutdown sentinel `~0ULL` checked by `cache_prime_thread`. -/
def shutdown_sentinel : Nat := 2 ^ 64 - 1

/-- `cache_loader::set_phys_address(uint64_t pa)`:
`target_kva_ = pa + page_base_offset_;` with `uint64_t` wrap-around. -/
def set_phys_address (page_base_offset pa : Nat) : Nat :=
  (pa + page_base_offset) % 2 ^ 64

/-- The loop body of `cache_loader::cache_prime_thread`: each iteration
performs one atomic load of `target_kva_`, breaks when the loaded value is
`~0ULL`, and otherwise invokes the `mincore` cache-load gadget on exactly
that value.  `reads` is the sequence of values the atomic loads observe
(one per iteration); `fuel` bounds how many iterations we unroll, since the
C++ loop itself need not terminate.  The result is the list of addresses
passed to the gadget, in order, paired with whether the loop exited within
`fuel` iterations. -/
def cache_prime_run (reads : Nat → Nat) : Nat → List Nat × Bool
  | 0 => ([], false)
  | fuel + 1 =>
    let kva := reads 0
    if kva = shutdown_sentinel then ([], true)
    else
      let rest := cache_prime_run (fun i => reads (i + 1)) fuel
      (kva :: rest.1, rest.2)

/-- Events of `cache_loader::~cache_loader()`: it stores the sentinel into
the atomic target and then joins the prime thread, in that order. -/
inductive loader_event where
  | store_target (v : Nat) : loader_event
  | join_thread : loader_event
deriving Repr, DecidableEq

/-- The destructor body: `target_kva_ = ~0ULL; prime_thread.join();`. -/
def cache_loader_dtor : List loader_event :=
  [loader_event.store_target shutdown_sentinel, loader_event.join_thread]

/-- The gadget invocation list is the maximal sentinel-free prefix of the
observed atomic loads. -/
theorem cache_prime_run_fst (reads : Nat → Nat) (fuel : Nat) :
    (cache_prime_run reads fuel).1 =
      ((List.range fuel).map reads).takeWhile fun v => decide (v ≠ shutdown_sentinel) := by
  induction fuel generalizing reads with
  | zero => rfl
  | succ fuel ih =>
    rw [List.range_succ_eq_map, List.map_cons, List.map_map, List.takeWhile_cons]
    unfold cache_prime_run
    by_cases hs : reads 0 = shutdown_sentinel
    · simp [hs]
    · have hr := ih (fun i => reads (i + 1))
      simp [hs, hr, Function.comp]
      rfl

/-- The loop exits exactly when some observed load is the sentinel. -/
theorem cache_prime_run_snd (reads : Nat → Nat) (fuel : Nat) :
    (cache_prime_run reads fuel).2 =
      ((List.range fuel).map reads).any fun v => decide (v = shutdown_sentinel) := by
  induction fuel generalizing reads with
  | zero => rfl
  | succ fuel ih =>
    rw [List.range_succ_eq_map, List.map_cons, List.map_map, List.any_cons]
    unfold cache_prime_run
    by_cases hs : reads 0 = shutdown_sentinel
    · simp [hs]
    · have hr := ih (fun i => reads (i + 1))
      simp [hs, hr, Function.comp]
      rfl

/-- Claim C9: cache-loader sentinel behaviour.  The gadget invocations are
exactly the maximal sentinel-free prefix of the observed atomic loads (each
invoked on exactly the value read, never after a sentinel read), the loop
exits exactly when some observed load is the sentinel, and the destructor
publishes the sentinel strictly before joining the thread. -/
theorem cache_loader_sentinel_loop (reads : Nat → Nat) (fuel : Nat) :
    ((cache_prime_run reads fuel).1 =
      ((List.range fuel).map reads).takeWhile fun v => decide (v ≠ shutdown_sentinel)) ∧
    ((cache_prime_run reads fuel).2 =
      ((List.range fuel).map reads).any fun v => decide (v = shutdown_sentinel)) ∧
    (cache_loader_dtor =
      [loader_event.store_target shutdown_sentinel, loader_event.join_thread]) :=
  ⟨cache_prime_run_fst reads fuel, cache_prime_run_snd reads fuel, rfl⟩

/-- Closed witness for C9 on a concrete read sequence 5, 7, sentinel, 9:
the gadget runs on 5 and 7 only and the loop exits. -/
theorem cache_loader_sentinel_loop_witness :
    ((cache_prime_run
        (fun i => if i = 0 then 5 else if i = 1 then 7 else
          if i = 2 then shutdown_sentinel else 9) 4).1 =
      ((List.range 4).map
          (fun i => if i = 0 then 5 else if i = 1 then 7 else
            if i = 2 then shutdown_sentinel else 9)).takeWhile
        fun v => decide (v ≠ shutdown_sentinel)) ∧
    ((cache_prime_run
        (fun i => if i = 0 then 5 else if i = 1 then 7 else
          if i = 2 then shutdown_sentinel else 9) 4).2 =
      ((List.range 4).map
          (fun i => if i = 0 then 5 else if i = 1 then 7 else
            if i = 2 then shutdown_sentinel else 9)).any
        fun v => decide (v = shutdown_sentinel)) ∧
    (cache_loader_dtor =
      [loader_event.store_target shutdown_sentinel, loader_event.join_thread]) :=
  cache_loader_sentinel_loop
    (fun i => if i = 0 then 5 else if i = 1 then 7 else
      if i = 2 then shutdown_sentinel else 9) 4

/-- Claim C10: implicit sentinel collision at the cache-loader interface.
The published target `pa + page_base_offset` wraps modulo `2 ^ 64` and
collides with the shutdown sentinel exactly for
`pa = 2 ^ 64 - 1 - page_base_offset`; for that input the loader thread
exits immediately with no gadget invocation, and for every other input it
keeps invoking the gadget on the published target forever. -/
theorem set_phys_address_sentinel_collision (off pa : Nat)
    (hoff : off < 2 ^ 64) (hpa : pa < 2 ^ 64) :
    (set_phys_address off pa = shutdown_sentinel ↔ pa = 2 ^ 64 - 1 - off) ∧
    (pa = 2 ^ 64 - 1 - off →
      ∀ fuel, 0 < fuel →
        cache_prime_run (fun _ => set_phys_address off pa) fuel = ([], true)) ∧
    (pa ≠ 2 ^ 64 - 1 - off →
      ∀ fuel,
        cache_prime_run (fun _ => set_phys_address off pa) fuel =
          (List.replicate fuel (set_phys_address off pa), false)) := by
  have h64 : (2 : Nat) ^ 64 = 18446744073709551616 := by norm_num
  have hcoll : set_phys_address off pa = shutdown_sentinel ↔ pa = 2 ^ 64 - 1 - off := by
    unfold set_phys_address shutdown_sentinel
    rw [h64] at *
    omega
  refine ⟨hcoll, ?_, ?_⟩
  · intro hp fuel hfuel
    have hs : set_phys_address off pa = shutdown_sentinel := hcoll.mpr hp
    cases fuel with
    | zero => omega
    | succ fuel => simp [cache_prime_run, hs]
  · intro hp fuel
    have hs : ¬set_phys_address off pa = shutdown_sentinel := fun hc => hp (hcoll.mp hc)
    induction fuel with
    | zero => rfl
    | succ fuel ih => simp [cache_prime_run, hs, ih, List.replicate_succ]

/-- Closed witness for C10 at `page_base_offset = 1`: the colliding physical
address `2 ^ 64 - 2` publishes the sentinel and stops the loader; the
address 0 keeps it priming. -/
theorem set_phys_address_sentinel_collision_witness :
    (set_phys_address 1 (2 ^ 64 - 2) = shutdown_sentinel) ∧
    (cache_prime_run (fun _ => set_phys_address 1 (2 ^ 64 - 2)) 3 = ([], true)) ∧
    (cache_prime_run (fun _ => set_phys_address 1 0) 2 =
      (List.replicate 2 (set_phys_address 1 0), false)) := by
  have h := set_phys_address_sentinel_collision 1 (2 ^ 64 - 2) (by norm_num) (by norm_num)
  have h0 := set_phys_address_sentinel_collision 1 0 (by norm_num) (by norm_num)
  refine ⟨h.1.mpr (by norm_num), h.2.1 (by norm_num) 3 (by norm_num), ?_⟩
  exact h0.2.2 (by norm_num) 2

/-! ### The driving loop of `main` -/

/-- One retry round of the per-word loop in `main`: a fresh
`value_reconstructor`, then `for (int i = 0; i < 16; i++)
reconstructor.record_attempt(leaker.try_leak_dword(phys));` followed by
`get_most_likely_value()`.  `attempt i` is the sample returned by the
`i`-th `try_leak_dword` call of this round. -/
def word_round (attempt : Nat → value_pair) : Nat :=
  ((List.range 16).foldl (fun r i => r.record_attempt (attempt i))
    value_reconstructor.init).get_most_likely_value

/-- The retry loop `for (int tries = 32; not leaked_value and tries; tries--)`
of `main`, with the loop counter as the recursion fuel.  `rounds k` gives the
16 samples observed in retry round `k`; round `k` corresponds to
`tries = 32 - k`, so the round evaluated at counter value `tries + 1` is
`31 - tries`. -/
def word_retry_go (rounds : Nat → Nat → value_pair) : Nat → Nat → Nat
  | leaked, 0 => leaked
  | leaked, tries + 1 =>
    if leaked ≠ 0 then leaked
    else word_retry_go rounds (word_round (rounds (31 - tries))) tries

/-- The final `leaked_value` for one word: the retry loop entered with
`leaked_value = 0` and `tries = 32`. -/
def leak_word (rounds : Nat → Nat → value_pair) : Nat :=
  word_retry_go rounds 0 32

/-- Specification-side scan: the first nonzero value of `f` at the `n`
positions `start, start + 1, ...`, and 0 when there is none. -/
def first_nonzero_from (f : Nat → Nat) : Nat → Nat → Nat
  | _, 0 => 0
  | start, n + 1 =>
    if f start ≠ 0 then f start else first_nonzero_from f (start + 1) n

/-- Observable actions of one iteration of the driving loop in `main`:
directing the cache loader at a new physical address
(`loader.set_phys_address(phys)` with `phys = offset + phys_addr` as
`uint64_t`), writing the four bytes of `leaked_value` to standard output
(`std::cout.write((const char *)&leaked_value, sizeof(leaked_value))`), and
flushing (`std::cout.flush()`). -/
inductive io_event where
  | set_target (pa : Nat) : io_event
  | write_bytes (bytes : List Nat) : io_event
  | flush_out : io_event
deriving Repr, DecidableEq

/-- The four bytes of a `uint32_t` as stored in memory on x86, least
significant byte first, which is what the byte-wise `std::cout.write` of
`leaked_value` emits (native byte order = little endian). -/
def le_bytes (w : Nat) : List Nat :=
  [w % 256, w / 256 % 256, w / 65536 % 256, w / 16777216 % 256]

/-- The driving loop `for (uint64_t offset = 0; offset < size; offset += 4)`
of `main`, from an arbitrary current offset.  `env offset round i` is the
sample that the `i`-th `try_leak_dword` call of retry round `round` returns
while the loop works on `offset`. -/
def main_loop_go (phys_addr size : Nat) (env : Nat → Nat → Nat → value_pair)
    (offset : Nat) : List io_event :=
  if _h : offset < size then
    io_event.set_target ((offset + phys_addr) % 2 ^ 64) ::
    io_event.write_bytes (le_bytes (leak_word (env offset))) ::
    io_event.flush_out ::
    main_loop_go phys_addr size env (offset + 4)
  else []
termination_by size - offset
decreasing_by omega

/-- The whole driving loop, starting at offset 0. -/
def main_loop (phys_addr size : Nat) (env : Nat → Nat → Nat → value_pair) :
    List io_event :=
  main_loop_go phys_addr size env 0

/-- A nonzero `leaked_value` is returned unchanged by the remaining retry
iterations. -/
theorem word_retry_go_pos (rounds : Nat → Nat → value_pair) (leaked tries : Nat)
    (h : leaked ≠ 0) : word_retry_go rounds leaked tries = leaked := by
  cases tries <;> simp [word_retry_go, h]

/-- The retry loop computes the estimate of the first round with a nonzero
estimate, scanning rounds `32 - tries, ...` in order, and 0 on exhaustion. -/
theorem word_retry_go_eq (rounds : Nat → Nat → value_pair) :
    ∀ tries, tries ≤ 32 →
      word_retry_go rounds 0 tries =
        first_nonzero_from (fun k => word_round (rounds k)) (32 - tries) tries := by
  intro tries
  induction tries with
  | zero => intro _; rfl
  | succ t ih =>
    intro h
    have h1 : 32 - (t + 1) = 31 - t := by omega
    have h2 : 31 - t + 1 = 32 - t := by omega
    unfold word_retry_go first_nonzero_from
    rw [if_neg (by omega), h1, h2]
    by_cases hz : word_round (rounds (31 - t)) ≠ 0
    · rw [if_pos hz, word_retry_go_pos rounds _ t hz]
    · rw [if_neg hz]
      push_neg at hz
      rw [hz]
      exact ih (by omega)

/-- `leaked_value` for a word is the estimate of the first of the 32 rounds
whose estimate is nonzero, and 0 when every round estimates 0. -/
theorem leak_word_eq (rounds : Nat → Nat → value_pair) :
    leak_word rounds = first_nonzero_from (fun k => word_round (rounds k)) 0 32 := by
  have := word_retry_go_eq rounds 32 (by omega)
  simpa using this

/-- A scan over positions where `f` vanishes yields 0. -/
theorem first_nonzero_from_zero (f : Nat → Nat) :
    ∀ n start, (∀ k, start ≤ k → k < start + n → f k = 0) →
      first_nonzero_from f start n = 0 := by
  intro n
  induction n with
  | zero => intro start _; rfl
  | succ n ih =>
    intro start hall
    unfold first_nonzero_from
    rw [if_neg (by simpa using hall start (by omega) (by omega))]
    exact ih (start + 1) fun k hk1 hk2 => hall k (by omega) (by omega)

/-- `flatMap` after shifting every index by one. -/
theorem flatMap_map_succ {α : Type} (g : Nat → List α) (l : List Nat) :
    (l.map Nat.succ).flatMap g = l.flatMap fun w => g (w + 1) := by
  induction l with
  | nil => rfl
  | cons a l ih => simp [ih]

/-- Closed form of the driving loop from an arbitrary offset: one
set-target/write/flush triple per remaining 4-byte step. -/
theorem main_loop_go_eq (phys_addr size : Nat) (env : Nat → Nat → Nat → value_pair) :
    ∀ n offset, size ≤ offset + 4 * n →
      main_loop_go phys_addr size env offset =
        (List.range ((size - offset + 3) / 4)).flatMap fun w =>
          [io_event.set_target ((offset + 4 * w + phys_addr) % 2 ^ 64),
           io_event.write_bytes (le_bytes (leak_word (env (offset + 4 * w)))),
           io_event.flush_out] := by
  intro n
  induction n with
  | zero =>
    intro offset h
    rw [main_loop_go]
    have hno : ¬offset < size := by omega
    have hz : (size - offset + 3) / 4 = 0 := by omega
    simp [hno, hz]
  | succ n ih =>
    intro offset h
    rw [main_loop_go]
    by_cases hlt : offset < size
    · rw [dif_pos hlt, ih (offset + 4) (by omega)]
      have hcount : (size - offset + 3) / 4 = (size - (offset + 4) + 3) / 4 + 1 := by
        omega
      rw [hcount, List.range_succ_eq_map, List.flatMap_cons, flatMap_map_succ]
      have hfun :
          (fun w =>
            [io_event.set_target ((offset + 4 + 4 * w + phys_addr) % 2 ^ 64),
             io_event.write_bytes (le_bytes (leak_word (env (offset + 4 + 4 * w)))),
             io_event.flush_out]) =
          fun w =>
            [io_event.set_target ((offset + 4 * (w + 1) + phys_addr) % 2 ^ 64),
             io_event.write_bytes (le_bytes (leak_word (env (offset + 4 * (w + 1))))),
             io_event.flush_out] := by
        funext w
        have ha : offset + 4 + 4 * w = offset + 4 * (w + 1) := by omega
        rw [ha]
      rw [hfun]
      simp
    · rw [dif_neg hlt]
      have hz : (size - offset + 3) / 4 = 0 := by omega
      simp [hz]

/-- Claim C6: driving-loop algorithm per word.  The loop steps through the
range four bytes at a time; per word it first directs the cache loader at
the current physical address, then retries up to 32 times, each retry
folding exactly 16 samples into a fresh reconstructor, stopping as soon as
an estimate is nonzero; it writes the final 4-byte estimate (zero when all
32 retries are exhausted) to the output stream in native (little-endian)
byte order and flushes after every word. -/
theorem driving_loop_shape (phys_addr size : Nat) (env : Nat → Nat → Nat → value_pair) :
    (main_loop phys_addr size env =
      (List.range ((size + 3) / 4)).flatMap fun w =>
        [io_event.set_target ((4 * w + phys_addr) % 2 ^ 64),
         io_event.write_bytes (le_bytes (leak_word (env (4 * w)))),
         io_event.flush_out]) ∧
    (∀ rounds : Nat → Nat → value_pair,
      leak_word rounds = first_nonzero_from (fun k => word_round (rounds k)) 0 32) ∧
    (∀ rounds : Nat → Nat → value_pair,
      (∀ k, k < 32 → word_round (rounds k) = 0) → leak_word rounds = 0) ∧
    (∀ attempt : Nat → value_pair,
      word_round attempt =
        (((List.range 16).map attempt).foldl
          value_reconstructor.record_attempt value_reconstructor.init).get_most_likely_value ∧
      ((List.range 16).map attempt).length = 16) ∧
    (∀ w : Nat, (le_bytes w).length = 4 ∧
      (le_bytes w).foldr (fun b acc => b + 256 * acc) 0 = w % 2 ^ 32) := by
  refine ⟨?_, leak_word_eq, ?_, ?_, ?_⟩
  · have := main_loop_go_eq phys_addr size env size 0 (by omega)
    simpa [main_loop] using this
  · intro rounds hall
    rw [leak_word_eq]
    exact first_nonzero_from_zero _ 32 0 fun k hk1 hk2 => hall k (by omega)
  · intro attempt
    constructor
    · unfold word_round
      rw [List.foldl_map]
    · simp
  · intro w
    refine ⟨rfl, ?_⟩
    have h32 : (2 : Nat) ^ 32 = 4294967296 := by norm_num
    simp only [le_bytes, List.foldr_cons, List.foldr_nil, h32]
    omega

/-- Closed witness for C6: the loop shape over an 8-byte range with an
environment of all-zero no-confidence samples. -/
theorem driving_loop_shape_witness :
    main_loop 0 8 (fun _ _ _ => ⟨0, 0⟩) =
      (List.range ((8 + 3) / 4)).flatMap fun w =>
        [io_event.set_target ((4 * w + 0) % 2 ^ 64),
         io_event.write_bytes
           (le_bytes (leak_word ((fun _ _ _ => (⟨0, 0⟩ : value_pair)) (4 * w)))),
         io_event.flush_out] :=
  (driving_loop_shape 0 8 (fun _ _ _ => ⟨0, 0⟩)).1

/-- Closed witness for C7 at a concrete physical address and the trivial
table state. -/
theorem get_victim_gva_spec_witness :
    (page_table_state.mk (fun _ => 0) (fun _ => 0) (fun _ => 0)
        (fun _ => 0)).get_victim_gva 0x1234567 = (0x1234567 % 4096) ||| 2 ^ 30 :=
  (get_victim_gva_spec 0x1234567).1
    (page_table_state.mk (fun _ => 0) (fun _ => 0) (fun _ => 0) (fun _ => 0))

end L1tfDemo
